import Mathlib

/-!
# Verification of the financial report generator's aggregation pipeline

Shallow embedding of `src/fin_report_app.py`. The aggregation core is
`process_data` (lines 104-135): it groups each of the four input tables by
calendar month (pandas `pd.Grouper(key='date', freq='M')`) and by a second
key (category / product / flow type), sums a numeric column, and pivots with
`unstack(fill_value=0)`.

Modelling choices:
* A pandas timestamp is modelled by `Date` (year/month/day); grouping with
  `freq='M'` identifies two dates exactly when they share year and month, so
  the month key is encoded as `year * 12 + (month - 1) : Nat`, which also
  makes the chronological order of month-end timestamps the order on `Nat`.
* Currency amounts are pandas int64/float64 in the source; they are modelled
  as `Int` (exact arithmetic; the claims under study are about exact sums).
* A pivoted table (`unstack(fill_value=0)`) is an association list
  `List (Nat × List (String × Int))`: one entry per month in the sorted row
  index, each holding one explicit cell per column of the sorted column
  index.  pandas sorts group keys, so both indices are sorted deduplicated
  lists of the keys observed in the table.
* A pandas `Series` with possible NaN entries (produced by index-aligned
  subtraction of two series) is `List (Nat × Option Int)`, `none` being NaN.
* A Python exception escaping an expression is modelled by `Option`:
  `monthly_cash_flow['Inflow']` raises `KeyError` when the pivot has no
  `Inflow` column, so the cash-flow stage and `process_data` return `none`
  in exactly that situation.
-/

namespace FinReport

/-- A calendar date, the parsed form of the `date` column. -/
structure Date where
  year : Nat
  month : Nat
  day : Nat
deriving DecidableEq, Repr

/-- The key produced by `pd.Grouper(key='date', freq='M')`: rows are grouped
by calendar month, and month-end timestamps compare chronologically, which
this `Nat` encoding preserves. -/
def monthKey (d : Date) : Nat := d.year * 12 + (d.month - 1)

/-- A row of the income table: columns `date`, `category`, `amount`. -/
structure IncomeRow where
  date : Date
  category : String
  amount : Int
deriving DecidableEq, Repr

/-- A row of the expense table: columns `date`, `category`, `amount`. -/
structure ExpenseRow where
  date : Date
  category : String
  amount : Int
deriving DecidableEq, Repr

/-- A row of the inventory table: columns `date`, `product`, `quantity`,
`cost_price`, `selling_price`. -/
structure InventoryRow where
  date : Date
  product : String
  quantity : Int
  cost_price : Int
  selling_price : Int
deriving DecidableEq, Repr

/-- A row of the cash-flow table: columns `date`, `type`, `category`,
`amount`. -/
structure CashFlowRow where
  date : Date
  type : String
  category : String
  amount : Int
deriving DecidableEq, Repr

/-- Sum of `f` over the rows of a list (pandas `Series.sum`; the sum of an
empty selection is `0`). -/
def sumBy {α : Type} (l : List α) (f : α → Int) : Int :=
  (l.map f).sum

/-- The sorted, deduplicated list of month keys occurring in a table: the
row index that `groupby([pd.Grouper(key='date', freq='M'), ...])` followed by
`unstack` produces (pandas sorts group keys). -/
def natKeys {α : Type} (rows : List α) (k : α → Nat) : List Nat :=
  List.insertionSort (· ≤ ·) (rows.map k).dedup

/-- Lexicographic comparison of two character lists by code point — the
order pandas sorts string group keys in. -/
def strLeAux : List Char → List Char → Bool
  | [], _ => true
  | _ :: _, [] => false
  | a :: as, b :: bs =>
    if a.toNat < b.toNat then true
    else if b.toNat < a.toNat then false
    else strLeAux as bs

/-- Lexicographic order on strings (by code point). -/
def strLe (a b : String) : Bool := strLeAux a.data b.data

/-- The sorted, deduplicated list of second-level keys (categories, products
or flow types) occurring in a table: the column index `unstack` produces. -/
def strKeys {α : Type} (rows : List α) (k : α → String) : List String :=
  List.insertionSort (fun a b => strLe a b = true) (rows.map k).dedup

/-- One cell of the pivoted table: the sum of `val` over the rows of the
`(month, column)` group, `0` when the group is empty (`fill_value=0`). -/
def cellSum {α : Type} (rows : List α) (mk : α → Nat) (ck : α → String)
    (val : α → Int) (m : Nat) (c : String) : Int :=
  sumBy (rows.filter fun r => decide (mk r = m ∧ ck r = c)) val

/-- `groupby([pd.Grouper(key='date', freq='M'), key]).agg(...).unstack(fill_value=0)`:
the month × column matrix with every cell explicit. -/
def pivotTable {α : Type} (rows : List α) (mk : α → Nat) (ck : α → String)
    (val : α → Int) : List (Nat × List (String × Int)) :=
  (natKeys rows mk).map fun m =>
    (m, (strKeys rows ck).map fun c => (c, cellSum rows mk ck val m c))

/-- Line 107: `income_df.groupby([pd.Grouper(key='date', freq='M'),
'category'])['amount'].sum().unstack(fill_value=0)`. -/
def monthly_income (income : List IncomeRow) : List (Nat × List (String × Int)) :=
  pivotTable income (fun r => monthKey r.date) (fun r => r.category) (fun r => r.amount)

/-- Line 108: `total_income = income_df['amount'].sum()`. -/
def total_income (income : List IncomeRow) : Int :=
  sumBy income (fun r => r.amount)

/-- Line 111: the expense pivot, built exactly like the income pivot. -/
def monthly_expenses (expense : List ExpenseRow) : List (Nat × List (String × Int)) :=
  pivotTable expense (fun r => monthKey r.date) (fun r => r.category) (fun r => r.amount)

/-- Line 112: `total_expenses = expense_df['amount'].sum()`. -/
def total_expenses (expense : List ExpenseRow) : Int :=
  sumBy expense (fun r => r.amount)

/-- `DataFrame.sum(axis=1)`: one total per month row of a pivot. -/
def rowTotals (p : List (Nat × List (String × Int))) : List (Nat × Int) :=
  p.map fun row => (row.1, sumBy row.2 (fun cell => cell.2))

/-- The row total of a pivot at month `m` (0 when `m` is absent); used to
state claims about per-month sums over categories. -/
def rowTotalAt (p : List (Nat × List (String × Int))) (m : Nat) : Int :=
  (List.lookup m (rowTotals p)).getD 0

/-- Index-aligned subtraction of two pandas Series: the result is indexed by
the sorted union of the two indices, and a month missing from either operand
yields NaN (`none`). -/
def seriesSub (s1 s2 : List (Nat × Int)) : List (Nat × Option Int) :=
  (List.insertionSort (· ≤ ·) ((s1.map Prod.fst) ++ (s2.map Prod.fst)).dedup).map
    fun m =>
      (m, match List.lookup m s1, List.lookup m s2 with
          | some a, some b => some (a - b)
          | _, _ => none)

/-- Line 115: `monthly_pnl = monthly_income.sum(axis=1) - monthly_expenses.sum(axis=1)`. -/
def monthly_pnl (income : List IncomeRow) (expense : List ExpenseRow) :
    List (Nat × Option Int) :=
  seriesSub (rowTotals (monthly_income income)) (rowTotals (monthly_expenses expense))

/-- Lines 118-119: the inventory pivot; each cell sums `quantity * cost_price`
over the `(month, product)` group. -/
def monthly_inventory_value (inventory : List InventoryRow) :
    List (Nat × List (String × Int)) :=
  pivotTable inventory (fun r => monthKey r.date) (fun r => r.product)
    (fun r => r.quantity * r.cost_price)

/-- Line 120: `total_inventory_value = (inventory_df['quantity'] * inventory_df['cost_price']).sum()`. -/
def total_inventory_value (inventory : List InventoryRow) : Int :=
  sumBy inventory (fun r => r.quantity * r.cost_price)

/-- Line 123: the cash-flow pivot over the `type` column, before the `Net`
column is added. -/
def cashPivot (cash_flow : List CashFlowRow) : List (Nat × List (String × Int)) :=
  pivotTable cash_flow (fun r => monthKey r.date) (fun r => r.type) (fun r => r.amount)

/-- Column assignment `df[name] = v` on one row of cells: pandas replaces the
column in place when it already exists and appends it at the end otherwise. -/
def setColumn (cells : List (String × Int)) (name : String) (v : Int) :
    List (String × Int) :=
  if cells.any fun cell => decide (cell.1 = name) then
    cells.map fun cell => if cell.1 = name then (cell.1, v) else cell
  else cells ++ [(name, v)]

/-- Line 124: `monthly_cash_flow['Net'] = monthly_cash_flow['Inflow'] -
monthly_cash_flow['Outflow']`.  Reading a column that the pivot does not have
raises `KeyError`, hence the `Option`: the computation succeeds exactly when
both an `Inflow` and an `Outflow` column exist, i.e. both flow types occur in
the table. -/
def monthly_cash_flow (cash_flow : List CashFlowRow) :
    Option (List (Nat × List (String × Int))) :=
  if "Inflow" ∈ strKeys cash_flow (fun r => r.type) ∧
      "Outflow" ∈ strKeys cash_flow (fun r => r.type) then
    some ((cashPivot cash_flow).map fun row =>
      (row.1, setColumn row.2 "Net"
        ((List.lookup "Inflow" row.2).getD 0 - (List.lookup "Outflow" row.2).getD 0)))
  else none

/-- The dictionary `process_data` returns (lines 126-135). -/
structure AggregateResult where
  monthly_income : List (Nat × List (String × Int))
  total_income : Int
  monthly_expenses : List (Nat × List (String × Int))
  total_expenses : Int
  monthly_pnl : List (Nat × Option Int)
  monthly_inventory_value : List (Nat × List (String × Int))
  total_inventory_value : Int
  monthly_cash_flow : List (Nat × List (String × Int))
deriving DecidableEq, Repr

/-- `process_data(income_df, expense_df, inventory_df, cash_flow_df)`
(lines 104-135).  The only statement of the function body that can raise on
well-typed input is the `Net` column computation (line 124), so the whole
call returns `none` exactly when that statement raises `KeyError`. -/
def process_data (income : List IncomeRow) (expense : List ExpenseRow)
    (inventory : List InventoryRow) (cash_flow : List CashFlowRow) :
    Option AggregateResult :=
  match monthly_cash_flow cash_flow with
  | none => none
  | some mcf =>
    some
      { monthly_income := monthly_income income
        total_income := total_income income
        monthly_expenses := monthly_expenses expense
        total_expenses := total_expenses expense
        monthly_pnl := monthly_pnl income expense
        monthly_inventory_value := monthly_inventory_value inventory
        total_inventory_value := total_inventory_value inventory
        monthly_cash_flow := mcf }

/-- The sum of every cell of a pivoted table (over all months and columns). -/
def pivotTotal (p : List (Nat × List (String × Int))) : Int :=
  sumBy p (fun row => sumBy row.2 (fun cell => cell.2))

/-- Totality of a pivot with respect to the table it was built from: every
key `c` observed in the table (under `ck`) has an explicit cell in every
month row of the pivot, and that cell is `0` whenever no row of the table
falls in that `(month, c)` group. -/
def pivotTotalOn {α : Type} (rows : List α) (mk : α → Nat) (ck : α → String)
    (p : List (Nat × List (String × Int))) : Prop :=
  ∀ c ∈ strKeys rows ck, ∀ row ∈ p,
    ∃ v, List.lookup c row.2 = some v ∧
      ((rows.filter fun r => decide (mk r = row.1 ∧ ck r = c)) = [] → v = 0)

/-- The four in-memory tables the presentation layer hands to `process_data`. -/
structure Tables where
  income : List IncomeRow
  expense : List ExpenseRow
  inventory : List InventoryRow
  cash_flow : List CashFlowRow
deriving DecidableEq, Repr

/-- A call `process_data(income_df, expense_df, inventory_df, cash_flow_df)`
viewed together with the caller's state: the function body only reads its
arguments (`groupby`, `sum`, `unstack` and column reads allocate new frames
and mutate nothing), so the tables the caller still holds after the call are
the ones it passed in. -/
def process_data_call (t : Tables) : Tables × Option AggregateResult :=
  ({ income := t.income
     expense := t.expense
     inventory := t.inventory
     cash_flow := t.cash_flow },
   process_data t.income t.expense t.inventory t.cash_flow)

/-! ## The upload path of `main` (lines 359-377)

`main` reads the four uploaded files and converts each `date` column with
`pd.to_datetime` inside one `try` block; any exception there is reported as a
generic read error and `main` returns before `process_data` runs.
`process_data` itself is called outside that `try`, so an exception it raises
(the `KeyError` of line 124) propagates out of `main`. -/

/-- An uploaded income row before date conversion: the `date` cell is text. -/
structure RawIncomeRow where
  date : String
  category : String
  amount : Int
deriving DecidableEq, Repr

/-- An uploaded expense row before date conversion. -/
structure RawExpenseRow where
  date : String
  category : String
  amount : Int
deriving DecidableEq, Repr

/-- An uploaded inventory row before date conversion. -/
structure RawInventoryRow where
  date : String
  product : String
  quantity : Int
  cost_price : Int
  selling_price : Int
deriving DecidableEq, Repr

/-- An uploaded cash-flow row before date conversion. -/
structure RawCashFlowRow where
  date : String
  type : String
  category : String
  amount : Int
deriving DecidableEq, Repr

/-- Splits a character list at `-` separators. -/
def splitDash : List Char → List (List Char)
  | [] => [[]]
  | c :: cs =>
    if c = '-' then [] :: splitDash cs
    else
      match splitDash cs with
      | [] => [[c]]
      | g :: gs => (c :: g) :: gs

/-- Reads decimal digits, accumulating their value; fails on a non-digit. -/
def parseNatCharsAux : List Char → Nat → Option Nat
  | [], acc => some acc
  | c :: cs, acc =>
    if 48 ≤ c.toNat ∧ c.toNat ≤ 57 then
      parseNatCharsAux cs (acc * 10 + (c.toNat - 48))
    else none

/-- Parses a non-empty all-digit character list as a decimal number. -/
def parseNatChars (cs : List Char) : Option Nat :=
  match cs with
  | [] => none
  | _ => parseNatCharsAux cs 0

/-- `pd.to_datetime` on one cell, restricted to the ISO `Y-M-D` layout: the
model only needs that a cell either parses to a calendar date or fails. -/
def parseDate (s : String) : Option Date :=
  match splitDash s.data with
  | [y, m, d] =>
    match parseNatChars y, parseNatChars m, parseNatChars d with
    | some yn, some mn, some dn =>
      if 1 ≤ mn ∧ mn ≤ 12 ∧ 1 ≤ dn ∧ dn ≤ 31 then some ⟨yn, mn, dn⟩ else none
    | _, _, _ => none
  | _ => none

/-- `pd.to_datetime` on a whole column: the conversion raises (and the whole
upload block fails) as soon as any cell fails to parse. -/
def parseAll {ρ α : Type} (f : ρ → Option α) : List ρ → Option (List α)
  | [] => some []
  | r :: rs =>
    match f r, parseAll f rs with
    | some a, some as => some (a :: as)
    | _, _ => none

/-- Date conversion of the income table. -/
def parseIncome (rows : List RawIncomeRow) : Option (List IncomeRow) :=
  parseAll (fun r => (parseDate r.date).map fun d =>
    { date := d, category := r.category, amount := r.amount }) rows

/-- Date conversion of the expense table. -/
def parseExpense (rows : List RawExpenseRow) : Option (List ExpenseRow) :=
  parseAll (fun r => (parseDate r.date).map fun d =>
    { date := d, category := r.category, amount := r.amount }) rows

/-- Date conversion of the inventory table. -/
def parseInventory (rows : List RawInventoryRow) : Option (List InventoryRow) :=
  parseAll (fun r => (parseDate r.date).map fun d =>
    { date := d, product := r.product, quantity := r.quantity,
      cost_price := r.cost_price, selling_price := r.selling_price }) rows

/-- Date conversion of the cash-flow table. -/
def parseCashFlow (rows : List RawCashFlowRow) : Option (List CashFlowRow) :=
  parseAll (fun r => (parseDate r.date).map fun d =>
    { date := d, type := r.type, category := r.category, amount := r.amount }) rows

/-- What one run of the upload path can produce. -/
inductive PipelineOutcome where
  /-- The `except` branch of lines 372-374: `st.error("Error reading
  files: ...")` followed by `return`, before `process_data` runs. -/
  | readError : PipelineOutcome
  /-- `process_data` ran and returned its result dictionary. -/
  | aggregated : AggregateResult → PipelineOutcome
  /-- `process_data` ran and raised (the line 124 `KeyError`), which `main`
  does not catch. -/
  | aggregationError : PipelineOutcome
deriving DecidableEq, Repr

/-- Lines 359-386 of `main` for uploaded data: read and date-convert the four
tables inside `try` (failure ⇒ generic error, no aggregation), then call
`process_data` outside any handler. -/
def run_pipeline (ri : List RawIncomeRow) (re : List RawExpenseRow)
    (rv : List RawInventoryRow) (rc : List RawCashFlowRow) : PipelineOutcome :=
  match parseIncome ri, parseExpense re, parseInventory rv, parseCashFlow rc with
  | some i, some e, some v, some c =>
    match process_data i e v c with
    | some r => .aggregated r
    | none => .aggregationError
  | _, _, _, _ => .readError

/-- The single-row income table of the spec's §8 scenario
(`{date: 2023-03-15, category: "Product Sales", amount: 1000}`). -/
def scenarioIncome : List IncomeRow :=
  [{ date := ⟨2023, 3, 15⟩, category := "Product Sales", amount := 1000 }]

/-- The single-row expense table of the spec's §8 scenario
(`{date: 2023-03-15, category: "Rent", amount: 400}`). -/
def scenarioExpense : List ExpenseRow :=
  [{ date := ⟨2023, 3, 15⟩, category := "Rent", amount := 400 }]

/-- A small well-formed cash-flow table with both flow types present. -/
def scenarioCashFlow : List CashFlowRow :=
  [{ date := ⟨2023, 3, 1⟩, type := "Inflow", category := "Product Sales", amount := 500 },
   { date := ⟨2023, 3, 2⟩, type := "Outflow", category := "Rent", amount := 200 }]

/-! ## Helper lemmas -/

theorem sumBy_nil {α : Type} (f : α → Int) : sumBy [] f = 0 := rfl

theorem sumBy_cons {α : Type} (r : α) (rs : List α) (f : α → Int) :
    sumBy (r :: rs) f = f r + sumBy rs f := by
  simp [sumBy]

theorem sumBy_zero {α : Type} (l : List α) : sumBy l (fun _ => (0 : Int)) = 0 := by
  induction l with
  | nil => rfl
  | cons r rs ih => simp [sumBy_cons, ih]

theorem sumBy_add {α : Type} (l : List α) (f g : α → Int) :
    sumBy l (fun x => f x + g x) = sumBy l f + sumBy l g := by
  induction l with
  | nil => rfl
  | cons r rs ih => simp [sumBy_cons, ih]; ring

theorem sumBy_map {α β : Type} (l : List α) (g : α → β) (f : β → Int) :
    sumBy (l.map g) f = sumBy l (fun x => f (g x)) := by
  simp [sumBy, List.map_map]; rfl

theorem mem_natKeys {α : Type} {rows : List α} {k : α → Nat} {m : Nat} :
    m ∈ natKeys rows k ↔ ∃ r ∈ rows, k r = m := by
  simp [natKeys, List.mem_insertionSort, List.mem_dedup]

theorem nodup_natKeys {α : Type} (rows : List α) (k : α → Nat) :
    (natKeys rows k).Nodup :=
  ((List.perm_insertionSort _ _).nodup_iff).mpr (List.nodup_dedup _)

theorem mem_strKeys {α : Type} {rows : List α} {k : α → String} {c : String} :
    c ∈ strKeys rows k ↔ ∃ r ∈ rows, k r = c := by
  simp [strKeys, List.mem_insertionSort, List.mem_dedup]

theorem nodup_strKeys {α : Type} (rows : List α) (k : α → String) :
    (strKeys rows k).Nodup :=
  ((List.perm_insertionSort _ _).nodup_iff).mpr (List.nodup_dedup _)

theorem lookup_map_self {κ β : Type} [BEq κ] [LawfulBEq κ] (ks : List κ)
    (g : κ → β) (c : κ) (hc : c ∈ ks) :
    List.lookup c (ks.map fun k => (k, g k)) = some (g c) := by
  induction ks with
  | nil => cases hc
  | cons k ks ih =>
    rcases List.mem_cons.mp hc with h | h
    · subst h; simp [List.lookup]
    · by_cases hk : k = c
      · subst hk; simp [List.lookup]
      · have hbeq : (c == k) = false := beq_eq_false_iff_ne.mpr fun h => hk h.symm
        simpa [List.lookup, hbeq] using ih h

theorem sumBy_if_not_mem {κ : Type} [DecidableEq κ] (ks : List κ) (v : κ)
    (hv : v ∉ ks) (a : Int) :
    sumBy ks (fun x => if v = x then a else 0) = 0 := by
  induction ks with
  | nil => rfl
  | cons k ks ih =>
    have hvk : v ≠ k := fun h => hv (h ▸ List.mem_cons_self k ks)
    have hv' : v ∉ ks := fun h => hv (List.mem_cons_of_mem _ h)
    simp [sumBy_cons, if_neg hvk, ih hv']

theorem sumBy_if_single {κ : Type} [DecidableEq κ] (ks : List κ)
    (hnd : ks.Nodup) (v : κ) (hv : v ∈ ks) (a : Int) :
    sumBy ks (fun x => if v = x then a else 0) = a := by
  induction ks with
  | nil => cases hv
  | cons k ks ih =>
    rcases List.mem_cons.mp hv with h | h
    · subst h
      have : v ∉ ks := (List.nodup_cons.mp hnd).1
      simp [sumBy_cons, sumBy_if_not_mem ks v this a]
    · have hvk : v ≠ k := fun hb => ((List.nodup_cons.mp hnd).1) (hb ▸ h)
      simp [sumBy_cons, if_neg hvk, ih (List.nodup_cons.mp hnd).2 h]

theorem sumBy_filter_cons {α : Type} (p : α → Bool) (r : α) (rs : List α)
    (f : α → Int) :
    sumBy ((r :: rs).filter p) f = (if p r then f r else 0) + sumBy (rs.filter p) f := by
  by_cases h : p r <;> simp [List.filter_cons, h, sumBy_cons]

theorem sumBy_partition {α κ : Type} [DecidableEq κ] (rows : List α) (k : α → κ)
    (f : α → Int) (ks : List κ) (hnd : ks.Nodup) (hmem : ∀ r ∈ rows, k r ∈ ks) :
    sumBy ks (fun x => sumBy (rows.filter fun r => decide (k r = x)) f) = sumBy rows f := by
  induction rows with
  | nil =>
    simpa [List.filter_nil] using sumBy_zero ks
  | cons r rs ih =>
    have hr : k r ∈ ks := hmem r (List.mem_cons_self r rs)
    have hrs : ∀ x ∈ rs, k x ∈ ks := fun x hx => hmem x (List.mem_cons_of_mem _ hx)
    calc sumBy ks (fun x => sumBy ((r :: rs).filter fun a => decide (k a = x)) f)
        = sumBy ks (fun x => (if k r = x then f r else 0) +
            sumBy (rs.filter fun a => decide (k a = x)) f) := by
          apply congrArg
          funext x
          simpa using sumBy_filter_cons (fun a => decide (k a = x)) r rs f
      _ = sumBy ks (fun x => if k r = x then f r else 0) +
            sumBy ks (fun x => sumBy (rs.filter fun a => decide (k a = x)) f) :=
          sumBy_add ks _ _
      _ = f r + sumBy rs f := by
          rw [sumBy_if_single ks hnd (k r) hr (f r), ih hrs]
      _ = sumBy (r :: rs) f := (sumBy_cons r rs f).symm

theorem filter_conj_split {α : Type} (rows : List α) (mk : α → Nat)
    (ck : α → String) (m : Nat) (c : String) :
    (rows.filter fun r => decide (mk r = m ∧ ck r = c)) =
      ((rows.filter fun r => decide (mk r = m)).filter fun r => decide (ck r = c)) := by
  rw [List.filter_filter]
  apply List.filter_congr
  intro a _
  by_cases h1 : mk a = m <;> by_cases h2 : ck a = c <;> simp [h1, h2]

theorem sumBy_cellSum {α : Type} (rows : List α) (mk : α → Nat) (ck : α → String)
    (val : α → Int) (m : Nat) :
    sumBy (strKeys rows ck) (fun c => cellSum rows mk ck val m c) =
      sumBy (rows.filter fun r => decide (mk r = m)) val := by
  have h1 : (fun c => cellSum rows mk ck val m c) = fun c =>
      sumBy ((rows.filter fun r => decide (mk r = m)).filter fun r => decide (ck r = c)) val := by
    funext c
    rw [cellSum, filter_conj_split]
  rw [h1]
  exact sumBy_partition _ ck val (strKeys rows ck) (nodup_strKeys rows ck)
    (fun r hr => mem_strKeys.mpr ⟨r, List.mem_of_mem_filter hr, rfl⟩)

theorem pivotTotal_pivotTable {α : Type} (rows : List α) (mk : α → Nat)
    (ck : α → String) (val : α → Int) :
    pivotTotal (pivotTable rows mk ck val) = sumBy rows val := by
  unfold pivotTotal pivotTable
  rw [sumBy_map]
  have h1 : (fun m => sumBy
      ((strKeys rows ck).map fun c => (c, cellSum rows mk ck val m c))
      (fun cell => cell.2)) =
      fun m => sumBy (rows.filter fun r => decide (mk r = m)) val := by
    funext m
    rw [sumBy_map]
    exact sumBy_cellSum rows mk ck val m
  rw [h1]
  exact sumBy_partition rows mk val (natKeys rows mk) (nodup_natKeys rows mk)
    (fun r hr => mem_natKeys.mpr ⟨r, hr, rfl⟩)

theorem rowTotals_pivotTable {α : Type} (rows : List α) (mk : α → Nat)
    (ck : α → String) (val : α → Int) :
    rowTotals (pivotTable rows mk ck val) =
      (natKeys rows mk).map fun m =>
        (m, sumBy (rows.filter fun r => decide (mk r = m)) val) := by
  unfold rowTotals pivotTable
  rw [List.map_map]
  congr 1
  funext m
  simp only [Function.comp]
  rw [sumBy_map]
  rw [sumBy_cellSum rows mk ck val m]

theorem lookup_rowTotals_pivotTable {α : Type} (rows : List α) (mk : α → Nat)
    (ck : α → String) (val : α → Int) (m : Nat) (hm : m ∈ natKeys rows mk) :
    List.lookup m (rowTotals (pivotTable rows mk ck val)) =
      some (sumBy (rows.filter fun r => decide (mk r = m)) val) := by
  rw [rowTotals_pivotTable]
  exact lookup_map_self _ _ m hm

theorem rowTotalAt_pivotTable {α : Type} (rows : List α) (mk : α → Nat)
    (ck : α → String) (val : α → Int) (m : Nat) (hm : m ∈ natKeys rows mk) :
    rowTotalAt (pivotTable rows mk ck val) m =
      sumBy (rows.filter fun r => decide (mk r = m)) val := by
  unfold rowTotalAt
  rw [lookup_rowTotals_pivotTable rows mk ck val m hm]
  rfl

theorem lookup_seriesSub (s1 s2 : List (Nat × Int)) (m : Nat)
    (hm : m ∈ (s1.map Prod.fst) ++ (s2.map Prod.fst)) :
    List.lookup m (seriesSub s1 s2) =
      some (match List.lookup m s1, List.lookup m s2 with
            | some a, some b => some (a - b)
            | _, _ => none) := by
  unfold seriesSub
  apply lookup_map_self
  simpa [List.mem_insertionSort, List.mem_dedup] using hm

theorem lookup_map_set_self (cells : List (String × Int)) (name : String) (v : Int)
    (h : (cells.any fun cell => decide (cell.1 = name)) = true) :
    List.lookup name (cells.map fun cell => if cell.1 = name then (cell.1, v) else cell) =
      some v := by
  induction cells with
  | nil => cases h
  | cons c cs ih =>
    rw [List.map_cons]
    by_cases hc : c.1 = name
    · rw [if_pos hc]
      have hb : (name == c.1) = true := beq_iff_eq.mpr hc.symm
      simp [List.lookup, hb]
    · rw [if_neg hc]
      have h' : (cs.any fun cell => decide (cell.1 = name)) = true := by
        simpa [List.any_cons, hc] using h
      have hb : (name == c.1) = false := beq_eq_false_iff_ne.mpr fun hx => hc hx.symm
      simp [List.lookup, hb, ih h']

theorem lookup_map_set_other (cells : List (String × Int)) (name other : String)
    (v : Int) (h : other ≠ name) :
    List.lookup other (cells.map fun cell => if cell.1 = name then (cell.1, v) else cell) =
      List.lookup other cells := by
  induction cells with
  | nil => rfl
  | cons c cs ih =>
    rw [List.map_cons]
    by_cases hc : c.1 = name
    · rw [if_pos hc]
      have ho : ¬ other = c.1 := fun hx => h (hx.trans hc)
      have hb : (other == c.1) = false := beq_eq_false_iff_ne.mpr ho
      simp [List.lookup, hb, ih]
    · rw [if_neg hc]
      by_cases ho : other = c.1
      · have hb : (other == c.1) = true := beq_iff_eq.mpr ho
        simp [List.lookup, hb]
      · have hb : (other == c.1) = false := beq_eq_false_iff_ne.mpr ho
        simp [List.lookup, hb, ih]

theorem lookup_append_single_self (cells : List (String × Int)) (name : String)
    (v : Int) (h : (cells.any fun cell => decide (cell.1 = name)) = false) :
    List.lookup name (cells ++ [(name, v)]) = some v := by
  induction cells with
  | nil => simp [List.lookup]
  | cons c cs ih =>
    rw [List.any_cons, Bool.or_eq_false_iff] at h
    have hc : ¬ c.1 = name := by simpa using h.1
    have hb : (name == c.1) = false := beq_eq_false_iff_ne.mpr fun hx => hc hx.symm
    simp [List.lookup, hb, ih h.2]

theorem lookup_append_single_other (cells : List (String × Int)) (name other : String)
    (v : Int) (h : other ≠ name) :
    List.lookup other (cells ++ [(name, v)]) = List.lookup other cells := by
  induction cells with
  | nil =>
    have hb : (other == name) = false := beq_eq_false_iff_ne.mpr h
    simp [List.lookup, hb]
  | cons c cs ih =>
    by_cases ho : other = c.1
    · have hb : (other == c.1) = true := beq_iff_eq.mpr ho
      simp [List.lookup, hb]
    · have hb : (other == c.1) = false := beq_eq_false_iff_ne.mpr ho
      simp [List.lookup, hb, ih]

theorem lookup_setColumn_self (cells : List (String × Int)) (name : String) (v : Int) :
    List.lookup name (setColumn cells name v) = some v := by
  unfold setColumn
  cases hany : (cells.any fun cell => decide (cell.1 = name)) with
  | true =>
    rw [if_pos rfl]
    exact lookup_map_set_self cells name v hany
  | false =>
    rw [if_neg (by simp)]
    exact lookup_append_single_self cells name v hany

theorem lookup_setColumn_other (cells : List (String × Int)) (name other : String)
    (v : Int) (h : other ≠ name) :
    List.lookup other (setColumn cells name v) = List.lookup other cells := by
  unfold setColumn
  cases hany : (cells.any fun cell => decide (cell.1 = name)) with
  | true =>
    rw [if_pos rfl]
    exact lookup_map_set_other cells name other v h
  | false =>
    rw [if_neg (by simp)]
    exact lookup_append_single_other cells name other v h

theorem mem_pivotTable {α : Type} {rows : List α} {mk : α → Nat} {ck : α → String}
    {val : α → Int} {row : Nat × List (String × Int)}
    (h : row ∈ pivotTable rows mk ck val) :
    row.1 ∈ natKeys rows mk ∧
      row.2 = (strKeys rows ck).map fun c => (c, cellSum rows mk ck val row.1 c) := by
  unfold pivotTable at h
  rcases List.mem_map.mp h with ⟨m, hm, heq⟩
  cases heq
  exact ⟨hm, rfl⟩

/-! ## Claim C1 -/

/-- C1 counterexample: with an income table containing one January 2023 row
and an empty expense table, month `24276` (January 2023) is present in the
income table, yet `monthly_pnl` at that month is NaN (`some none`), not the
claimed `monthly_income_total − monthly_expense_total`: pandas index
alignment makes `monthly_income.sum(axis=1) - monthly_expenses.sum(axis=1)`
NaN at any month present in only one of the two tables. -/
theorem monthly_pnl_claim_counterexample :
    (∃ r ∈ ([{ date := ⟨2023, 1, 5⟩, category := "Product Sales", amount := 100 }] :
        List IncomeRow), monthKey r.date = 24276) ∧
    List.lookup 24276
        (monthly_pnl
          [{ date := ⟨2023, 1, 5⟩, category := "Product Sales", amount := 100 }] []) =
      some none ∧
    some (none : Option Int) ≠
      some (some (rowTotalAt (monthly_income
          [{ date := ⟨2023, 1, 5⟩, category := "Product Sales", amount := 100 }]) 24276 -
        rowTotalAt (monthly_expenses []) 24276)) := by
  decide

/-- C1 (amended): for every month `m` present in BOTH the income and the
expense table, `monthly_pnl[m]` is defined and equals the sum over categories
of `monthly_income[m]` minus the sum over categories of
`monthly_expenses[m]`. -/
theorem monthly_pnl_eq_on_months_in_both (income : List IncomeRow)
    (expense : List ExpenseRow) (m : Nat)
    (hi : ∃ r ∈ income, monthKey r.date = m)
    (he : ∃ r ∈ expense, monthKey r.date = m) :
    List.lookup m (monthly_pnl income expense) =
      some (some (rowTotalAt (monthly_income income) m -
        rowTotalAt (monthly_expenses expense) m)) := by
  have hmi : m ∈ natKeys income (fun r => monthKey r.date) := mem_natKeys.mpr hi
  have hme : m ∈ natKeys expense (fun r => monthKey r.date) := mem_natKeys.mpr he
  have hkeys : m ∈ ((rowTotals (monthly_income income)).map Prod.fst) ++
      ((rowTotals (monthly_expenses expense)).map Prod.fst) := by
    apply List.mem_append_left
    unfold monthly_income
    rw [rowTotals_pivotTable, List.map_map]
    simpa using hmi
  unfold monthly_pnl
  rw [lookup_seriesSub _ _ m hkeys]
  unfold monthly_income monthly_expenses
  rw [lookup_rowTotals_pivotTable _ _ _ _ m hmi,
      lookup_rowTotals_pivotTable _ _ _ _ m hme,
      rowTotalAt_pivotTable _ _ _ _ m hmi,
      rowTotalAt_pivotTable _ _ _ _ m hme]

/-- Witness for the amended C1 at the spec's §8 scenario: March 2023 (key
`24278`) occurs in both single-row tables and `monthly_pnl` there equals the
difference of the two per-month category sums (`1000 − 400 = 600`). -/
theorem monthly_pnl_eq_on_months_in_both_witness :
    (∃ r ∈ scenarioIncome, monthKey r.date = 24278) ∧
    (∃ r ∈ scenarioExpense, monthKey r.date = 24278) ∧
    List.lookup 24278 (monthly_pnl scenarioIncome scenarioExpense) =
      some (some (rowTotalAt (monthly_income scenarioIncome) 24278 -
        rowTotalAt (monthly_expenses scenarioExpense) 24278)) :=
  ⟨by decide, by decide,
    monthly_pnl_eq_on_months_in_both scenarioIncome scenarioExpense 24278
      (by decide) (by decide)⟩

/-! ## Claim C2 -/

/-- C2: for any non-empty income table, the sum of all cells of the pivoted
`monthly_income` table (over all months and categories) equals the scalar
`total_income` computed over the raw income table.  (Amounts are modelled as
exact integers, so no floating-point epsilon is needed.) -/
theorem pivotTotal_monthly_income_eq_total_income (income : List IncomeRow)
    (_hne : income ≠ []) :
    pivotTotal (monthly_income income) = total_income income :=
  pivotTotal_pivotTable income _ _ _

/-- Witness for C2 at the spec's §8 scenario income table. -/
theorem pivotTotal_monthly_income_witness :
    scenarioIncome ≠ [] ∧
    pivotTotal (monthly_income scenarioIncome) = total_income scenarioIncome :=
  ⟨by decide, pivotTotal_monthly_income_eq_total_income scenarioIncome (by decide)⟩

/-! ## Claim C3 -/

/-- C3: whenever the cash-flow aggregation succeeds, every month row of the
pivoted cash-flow table satisfies `Net = Inflow − Outflow` on its explicit
cells. -/
theorem cash_flow_net_eq (cf : List CashFlowRow)
    (mcf : List (Nat × List (String × Int))) (h : monthly_cash_flow cf = some mcf)
    (row : Nat × List (String × Int)) (hrow : row ∈ mcf) :
    List.lookup "Net" row.2 =
      some ((List.lookup "Inflow" row.2).getD 0 -
        (List.lookup "Outflow" row.2).getD 0) := by
  unfold monthly_cash_flow at h
  by_cases hg : ("Inflow" ∈ strKeys cf (fun r => r.type) ∧
      "Outflow" ∈ strKeys cf (fun r => r.type))
  · rw [if_pos hg] at h
    injection h with h
    subst h
    rcases List.mem_map.mp hrow with ⟨row0, _hrow0, heq⟩
    cases heq
    dsimp only
    have hIn : ("Inflow" : String) ≠ "Net" := by decide
    have hOut : ("Outflow" : String) ≠ "Net" := by decide
    rw [lookup_setColumn_self, lookup_setColumn_other _ _ _ _ hIn,
        lookup_setColumn_other _ _ _ _ hOut]
  · rw [if_neg hg] at h
    cases h

/-- Witness for C3: on the two-row cash-flow table the pivot has a single
March 2023 row with `Inflow = 500`, `Outflow = 200`, `Net = 300`. -/
theorem cash_flow_net_eq_witness :
    monthly_cash_flow scenarioCashFlow =
      some [(24278, [("Inflow", 500), ("Outflow", 200), ("Net", 300)])] ∧
    List.lookup "Net"
        ((24278, [("Inflow", (500 : Int)), ("Outflow", 200), ("Net", 300)]) :
          Nat × List (String × Int)).2 =
      some ((List.lookup "Inflow"
          ((24278, [("Inflow", (500 : Int)), ("Outflow", 200), ("Net", 300)]) :
            Nat × List (String × Int)).2).getD 0 -
        (List.lookup "Outflow"
          ((24278, [("Inflow", (500 : Int)), ("Outflow", 200), ("Net", 300)]) :
            Nat × List (String × Int)).2).getD 0) :=
  ⟨by decide,
    cash_flow_net_eq scenarioCashFlow
      [(24278, [("Inflow", 500), ("Outflow", 200), ("Net", 300)])] (by decide)
      (24278, [("Inflow", 500), ("Outflow", 200), ("Net", 300)]) (by decide)⟩

/-! ## Claim C4 -/

theorem pivotTotalOn_pivotTable {α : Type} (rows : List α) (mk : α → Nat)
    (ck : α → String) (val : α → Int) :
    pivotTotalOn rows mk ck (pivotTable rows mk ck val) := by
  intro c hc row hrow
  obtain ⟨_, hcells⟩ := mem_pivotTable hrow
  refine ⟨cellSum rows mk ck val row.1 c, ?_, ?_⟩
  · rw [hcells]
    exact lookup_map_self _ _ c hc
  · intro hempty
    unfold cellSum
    rw [hempty]
    rfl

theorem pivotTotalOn_monthly_cash_flow (cf : List CashFlowRow)
    (mcf : List (Nat × List (String × Int))) (h : monthly_cash_flow cf = some mcf)
    (hschema : ∀ r ∈ cf, r.type = "Inflow" ∨ r.type = "Outflow") :
    pivotTotalOn cf (fun r => monthKey r.date) (fun r => r.type) mcf := by
  intro c hc row hrow
  obtain ⟨r0, hr0, hr0c⟩ := mem_strKeys.mp hc
  have hcNet : c ≠ "Net" := by
    rcases hschema r0 hr0 with hr | hr <;> rw [← hr0c, hr] <;> decide
  unfold monthly_cash_flow at h
  by_cases hg : ("Inflow" ∈ strKeys cf (fun r => r.type) ∧
      "Outflow" ∈ strKeys cf (fun r => r.type))
  · rw [if_pos hg] at h
    injection h with h
    subst h
    rcases List.mem_map.mp hrow with ⟨row0, hrow0, heq⟩
    cases heq
    dsimp only
    obtain ⟨_, hcells⟩ := mem_pivotTable hrow0
    refine ⟨cellSum cf (fun r => monthKey r.date) (fun r => r.type)
      (fun r => r.amount) row0.1 c, ?_, ?_⟩
    · rw [lookup_setColumn_other _ _ _ _ hcNet, hcells]
      exact lookup_map_self _ _ c hc
    · intro hempty
      unfold cellSum
      rw [hempty]
      rfl
  · rw [if_neg hg] at h
    cases h

/-- C4: every pivot the aggregator produces is total — for any category /
product / flow type observed anywhere in the corresponding table (with the
cash-flow `type` column holding only its two documented enum values), every
month row of the pivot carries an explicit cell for that column, and the
cell is `0` when the key was not observed in that month. -/
theorem aggregator_pivots_total (income : List IncomeRow)
    (expense : List ExpenseRow) (inventory : List InventoryRow)
    (cf : List CashFlowRow) (res : AggregateResult)
    (hschema : ∀ r ∈ cf, r.type = "Inflow" ∨ r.type = "Outflow")
    (h : process_data income expense inventory cf = some res) :
    pivotTotalOn income (fun r => monthKey r.date) (fun r => r.category)
      res.monthly_income ∧
    pivotTotalOn expense (fun r => monthKey r.date) (fun r => r.category)
      res.monthly_expenses ∧
    pivotTotalOn inventory (fun r => monthKey r.date) (fun r => r.product)
      res.monthly_inventory_value ∧
    pivotTotalOn cf (fun r => monthKey r.date) (fun r => r.type)
      res.monthly_cash_flow := by
  unfold process_data at h
  cases hmcf : monthly_cash_flow cf with
  | none =>
    rw [hmcf] at h
    cases h
  | some mcf =>
    rw [hmcf] at h
    injection h with h
    subst h
    exact ⟨pivotTotalOn_pivotTable income _ _ _,
      pivotTotalOn_pivotTable expense _ _ _,
      pivotTotalOn_pivotTable inventory _ _ _,
      pivotTotalOn_monthly_cash_flow cf mcf hmcf hschema⟩

/-- Witness for C4 at the scenario tables (inventory empty). -/
theorem aggregator_pivots_total_witness :
    (∀ r ∈ scenarioCashFlow, r.type = "Inflow" ∨ r.type = "Outflow") ∧
    ∃ res, process_data scenarioIncome scenarioExpense [] scenarioCashFlow =
        some res ∧
      (pivotTotalOn scenarioIncome (fun r => monthKey r.date)
          (fun r => r.category) res.monthly_income ∧
        pivotTotalOn scenarioExpense (fun r => monthKey r.date)
          (fun r => r.category) res.monthly_expenses ∧
        pivotTotalOn ([] : List InventoryRow) (fun r => monthKey r.date)
          (fun r => r.product) res.monthly_inventory_value ∧
        pivotTotalOn scenarioCashFlow (fun r => monthKey r.date)
          (fun r => r.type) res.monthly_cash_flow) := by
  refine ⟨by decide, _, rfl, ?_⟩
  exact aggregator_pivots_total scenarioIncome scenarioExpense []
    scenarioCashFlow _ (by decide) rfl

/-! ## Claim C5 -/

theorem parseAll_eq_none {ρ α : Type} (f : ρ → Option α) (l : List ρ)
    (h : ∃ r ∈ l, f r = none) : parseAll f l = none := by
  induction l with
  | nil =>
    rcases h with ⟨r, hr, _⟩
    cases hr
  | cons x xs ih =>
    rcases h with ⟨r, hr, hf⟩
    rcases List.mem_cons.mp hr with hx | hr'
    · unfold parseAll
      rw [← hx, hf]
    · unfold parseAll
      rw [ih ⟨r, hr', hf⟩]
      cases f x <;> rfl

/-- C5 counterexample: a required table (inventory) has zero rows, yet the
pipeline raises no error of any kind — no `EmptyDatasetError` exists in the
program, the read stage accepts the empty table, and aggregation completes
normally (cf. the spec scenario behind C7). -/
theorem empty_table_no_error_counterexample :
    run_pipeline
        [{ date := "2023-03-15", category := "Product Sales", amount := 1000 }]
        [{ date := "2023-03-15", category := "Rent", amount := 400 }]
        []
        [{ date := "2023-03-01", type := "Inflow", category := "Product Sales",
           amount := 500 },
         { date := "2023-03-02", type := "Outflow", category := "Rent",
           amount := 200 }] ≠ PipelineOutcome.readError ∧
    run_pipeline
        [{ date := "2023-03-15", category := "Product Sales", amount := 1000 }]
        [{ date := "2023-03-15", category := "Rent", amount := 400 }]
        []
        [{ date := "2023-03-01", type := "Inflow", category := "Product Sales",
           amount := 500 },
         { date := "2023-03-02", type := "Outflow", category := "Rent",
           amount := 200 }] ≠ PipelineOutcome.aggregationError := by
  decide

/-- C5 (amended): an unparseable date in any of the four uploaded tables is
detected while reading, before the aggregator runs — the pipeline stops with
the generic read error of lines 372-374.  (Zero-row tables, by contrast, are
not rejected: the program has no `EmptyDatasetError`/`DataFormatError`
classes and no table-identifying error reporting.) -/
theorem unparseable_date_read_error (ri : List RawIncomeRow)
    (re : List RawExpenseRow) (rv : List RawInventoryRow)
    (rc : List RawCashFlowRow)
    (h : (∃ r ∈ ri, parseDate r.date = none) ∨
      (∃ r ∈ re, parseDate r.date = none) ∨
      (∃ r ∈ rv, parseDate r.date = none) ∨
      (∃ r ∈ rc, parseDate r.date = none)) :
    run_pipeline ri re rv rc = PipelineOutcome.readError := by
  rcases h with h | h | h | h
  · have hp : parseIncome ri = none := by
      apply parseAll_eq_none
      rcases h with ⟨r, hr, hd⟩
      exact ⟨r, hr, by rw [hd]; rfl⟩
    unfold run_pipeline
    rw [hp]
  · have hp : parseExpense re = none := by
      apply parseAll_eq_none
      rcases h with ⟨r, hr, hd⟩
      exact ⟨r, hr, by rw [hd]; rfl⟩
    unfold run_pipeline
    rw [hp]
    cases parseIncome ri <;> rfl
  · have hp : parseInventory rv = none := by
      apply parseAll_eq_none
      rcases h with ⟨r, hr, hd⟩
      exact ⟨r, hr, by rw [hd]; rfl⟩
    unfold run_pipeline
    rw [hp]
    cases parseIncome ri <;> cases parseExpense re <;> rfl
  · have hp : parseCashFlow rc = none := by
      apply parseAll_eq_none
      rcases h with ⟨r, hr, hd⟩
      exact ⟨r, hr, by rw [hd]; rfl⟩
    unfold run_pipeline
    rw [hp]
    cases parseIncome ri <;> cases parseExpense re <;>
      cases parseInventory rv <;> rfl

/-- Witness for the amended C5: an income row whose date cell does not parse
makes the pipeline stop with the read error before aggregation. -/
theorem unparseable_date_read_error_witness :
    ((∃ r ∈ [({ date := "not a date", category := "Product Sales", amount := 1000 } : RawIncomeRow)], parseDate r.date = none) ∨
      (∃ r ∈ ([] : List RawExpenseRow), parseDate r.date = none) ∨
      (∃ r ∈ ([] : List RawInventoryRow), parseDate r.date = none) ∨
      (∃ r ∈ ([] : List RawCashFlowRow), parseDate r.date = none)) ∧
    run_pipeline
        [{ date := "not a date", category := "Product Sales", amount := 1000 }]
        [] [] [] = PipelineOutcome.readError :=
  ⟨Or.inl (by decide),
    unparseable_date_read_error _ _ _ _ (Or.inl (by decide))⟩

/-! ## Claim C7 -/

/-- C7: for an inventory table with zero rows (and a cash-flow table meeting
the aggregator's implicit precondition of having both flow types), the
aggregation call completes normally and returns `total_inventory_value = 0`. -/
theorem empty_inventory_zero_total (income : List IncomeRow)
    (expense : List ExpenseRow) (cf : List CashFlowRow)
    (hin : ∃ r ∈ cf, r.type = "Inflow") (hout : ∃ r ∈ cf, r.type = "Outflow") :
    ∃ res, process_data income expense [] cf = some res ∧
      res.total_inventory_value = 0 := by
  unfold process_data monthly_cash_flow
  rw [if_pos ⟨mem_strKeys.mpr hin, mem_strKeys.mpr hout⟩]
  exact ⟨_, rfl, rfl⟩

/-- Witness for C7 at the scenario tables with an empty inventory table. -/
theorem empty_inventory_zero_total_witness :
    (∃ r ∈ scenarioCashFlow, r.type = "Inflow") ∧
    (∃ r ∈ scenarioCashFlow, r.type = "Outflow") ∧
    ∃ res, process_data scenarioIncome scenarioExpense [] scenarioCashFlow =
      some res ∧ res.total_inventory_value = 0 :=
  ⟨by decide, by decide,
    empty_inventory_zero_total scenarioIncome scenarioExpense scenarioCashFlow
      (by decide) (by decide)⟩

/-! ## Claim C8 -/

/-- C8: the aggregator is deterministic — two calls on equal copies of the
four input tables return equal results (it reads no state other than its
arguments and uses no randomness). -/
theorem process_data_deterministic (i i' : List IncomeRow)
    (e e' : List ExpenseRow) (v v' : List InventoryRow)
    (c c' : List CashFlowRow) (hi : i = i') (he : e = e') (hv : v = v')
    (hc : c = c') :
    process_data i e v c = process_data i' e' v' c' := by
  subst hi; subst he; subst hv; subst hc; rfl

/-- Witness for C8: two runs on equal copies of the scenario tables agree. -/
theorem process_data_deterministic_witness :
    scenarioIncome = scenarioIncome ∧ scenarioExpense = scenarioExpense ∧
    ([] : List InventoryRow) = [] ∧ scenarioCashFlow = scenarioCashFlow ∧
    process_data scenarioIncome scenarioExpense [] scenarioCashFlow =
      process_data scenarioIncome scenarioExpense [] scenarioCashFlow :=
  ⟨rfl, rfl, rfl, rfl,
    process_data_deterministic scenarioIncome scenarioIncome scenarioExpense
      scenarioExpense [] [] scenarioCashFlow scenarioCashFlow rfl rfl rfl rfl⟩

/-! ## Claim C9 -/

/-- C9: the aggregation succeeds exactly when the cash-flow table contains at
least one row of type `Inflow` and at least one of type `Outflow`; when
either flow type is entirely absent, the `Net` computation of line 124 raises
`KeyError` (modelled by `none`) instead of treating the missing column as
zero. -/
theorem process_data_succeeds_iff (income : List IncomeRow)
    (expense : List ExpenseRow) (inventory : List InventoryRow)
    (cf : List CashFlowRow) :
    (∃ res, process_data income expense inventory cf = some res) ↔
      ((∃ r ∈ cf, r.type = "Inflow") ∧ (∃ r ∈ cf, r.type = "Outflow")) := by
  unfold process_data monthly_cash_flow
  by_cases hg : ("Inflow" ∈ strKeys cf (fun r => r.type) ∧
      "Outflow" ∈ strKeys cf (fun r => r.type))
  · rw [if_pos hg]
    constructor
    · intro _
      exact ⟨mem_strKeys.mp hg.1, mem_strKeys.mp hg.2⟩
    · intro _
      exact ⟨_, rfl⟩
  · rw [if_neg hg]
    constructor
    · rintro ⟨res, hres⟩
      exact Option.noConfusion hres
    · rintro ⟨h1, h2⟩
      exact absurd ⟨mem_strKeys.mpr h1, mem_strKeys.mpr h2⟩ hg

/-! ## Claim C10 -/

/-- C10: the aggregator does not mutate its arguments — after the call the
four tables the caller passed in are unchanged. -/
theorem process_data_call_preserves_tables (t : Tables) :
    (process_data_call t).1 = t := rfl

end FinReport
